import Mathlib

/-!
Shallow embedding of `src/index.js`: a single AWS-Lambda-style request
handler serving CRUD operations over a product table, with speech-audio
side effects on create/update.

The handler itself (`handler` and its per-method branches) is translated
from the source.  The three external collaborators (the collection store,
the speech service, the object store) are not part of the repository's
source; their behaviour, where a claim depends on it, is modelled from
the specification's description of the interfaces (see the doc comments
on `updateCommand`, `deleteCommand`, `scanItems`).  Failures of the
external services are injected through the `Env` record: a `some msg`
in the corresponding field means that call throws an error whose
`.message` is `msg`.

JSON request-body fields are represented by their source text
(`Option String`); JavaScript coerces `parseInt`/`parseFloat` arguments
to strings first, so a numeric literal is represented by its literal
text, and an absent field by `none` (`parseInt(undefined)` is `NaN`).
-/

namespace ProductApi

/-- JavaScript truthiness restricted to the string-or-absent values the
handler tests with `!x`: `undefined`/`null` and the empty string are falsy. -/
def truthyS : Option String → Bool
  | none => false
  | some s => !s.isEmpty

/-- JavaScript `a || b` on string-or-absent values: yields `a` when `a` is
truthy, otherwise `b`. -/
def jsOrS (a b : Option String) : Option String :=
  if truthyS a then a else b

/-- Characters skipped by `parseInt`/`parseFloat` before the number. -/
def isJsSpace (c : Char) : Bool :=
  c = ' ' || c = '\t' || c = '\n' || c = '\r'

/-- Leading-sign reader shared by the two numeric parsers. -/
def readSign : List Char → Int × List Char
  | '-' :: rest => (-1, rest)
  | '+' :: rest => (1, rest)
  | s => (1, s)

/-- Value of a digit string, most significant first. -/
def digitsVal (ds : List Char) : Nat :=
  ds.foldl (fun a c => a * 10 + (c.toNat - 48)) 0

/-- JavaScript `parseInt(x, 10)` on a string-or-absent value: skip
whitespace, optional sign, then the longest prefix of decimal digits;
`none` models `NaN` (no digits, or the argument was absent). -/
def parseIntJS : Option String → Option Int
  | none => none
  | some s =>
    let s1 := s.data.dropWhile isJsSpace
    let sg := readSign s1
    let ds := sg.2.takeWhile Char.isDigit
    if ds.isEmpty then none else some (sg.1 * (digitsVal ds : Int))

/-- JavaScript `parseFloat(x)` on a string-or-absent value: skip
whitespace, optional sign, decimal digits with optional fraction and
optional exponent; `none` models `NaN`.  (The special literal
`Infinity` is outside the finite-decimal fragment modelled here.) -/
def parseFloatJS : Option String → Option Rat
  | none => none
  | some s =>
    let s1 := s.data.dropWhile isJsSpace
    let sg := readSign s1
    let intDs := sg.2.takeWhile Char.isDigit
    let r1 := sg.2.dropWhile Char.isDigit
    let fracDs :=
      match r1 with
      | '.' :: t => t.takeWhile Char.isDigit
      | _ => []
    let r2 :=
      match r1 with
      | '.' :: t => t.dropWhile Char.isDigit
      | _ => r1
    if intDs.isEmpty && fracDs.isEmpty then none
    else
      let mantNum : Int := sg.1 * ((digitsVal intDs * 10 ^ fracDs.length + digitsVal fracDs : Nat) : Int)
      let mantDen : Nat := 10 ^ fracDs.length
      let expVal : Int :=
        match r2 with
        | 'e' :: t =>
          let es := readSign t
          let eds := es.2.takeWhile Char.isDigit
          if eds.isEmpty then 0 else es.1 * ((digitsVal eds : Nat) : Int)
        | 'E' :: t =>
          let es := readSign t
          let eds := es.2.takeWhile Char.isDigit
          if eds.isEmpty then 0 else es.1 * ((digitsVal eds : Nat) : Int)
        | _ => 0
      if 0 ≤ expVal then some (mkRat (mantNum * (10 : Int) ^ expVal.toNat) mantDen)
      else some (mkRat mantNum (mantDen * 10 ^ (-expVal).toNat))

/-- JavaScript `String.prototype.toLowerCase`, modelled character-wise
(ASCII letter folding, the fragment Lean's `Char.toLower` covers). -/
def toLowerStr (s : String) : String :=
  ⟨s.data.map Char.toLower⟩

/-- Substring containment on character lists, the semantics of the store's
`contains(searchname, :s)` filter function: exact-case, true iff the needle
occurs contiguously in the haystack. -/
def containsSub : List Char → List Char → Bool
  | n, [] => n.isEmpty
  | n, c :: t => n.isPrefixOf (c :: t) || containsSub n t

/-- A stored product record.  `userId`/`createdAt` are `Option` because a
record created through the update primitive's upsert path has neither
attribute; `none` on `userId` also stands for a null owner value. -/
structure Item where
  productid : String
  productname : String
  quantity : Int
  price : Rat
  userId : Option String
  searchname : String
  createdAt : Option String
deriving DecidableEq

/-- Claims payload of a compact token, as consumed by
`getUserEmailFromToken`: the three claim fields it reads. -/
structure Payload where
  email : Option String
  cognitoUsername : Option String
  preferredUsername : Option String
deriving DecidableEq

/-- Parsed JSON request body: the four fields the handler reads, each
represented by its source text. -/
structure ReqBody where
  productname : Option String
  quantity : Option String
  price : Option String
  user : Option String
deriving DecidableEq

/-- The raw `event.body` as it reaches `JSON.parse`: absent (falsy),
present but malformed (`JSON.parse` throws an error with message `msg`),
or parsing to an object. -/
inductive RawBody
  | noBody
  | bad (msg : String)
  | good (b : ReqBody)
deriving DecidableEq

/-- An inbound HTTP-shaped event. -/
structure Event where
  httpMethod : String
  pathId : Option String
  search : Option String
  headers : Option (List (String × String))
  body : RawBody

/-- Response body payloads, a structured stand-in for `JSON.stringify`. -/
inductive RespBody
  | emptyObj
  | message (s : String)
  | item (it : Item)
  | items (l : List Item)
deriving DecidableEq

/-- An outbound HTTP-shaped response; `body := none` models the bodyless
204 response. -/
structure Response where
  statusCode : Nat
  headers : List (String × String)
  body : Option RespBody
deriving DecidableEq

/-- Commands issued to the three external services during one invocation. -/
inductive Effect
  | scan
  | putRecord (it : Item)
  | updateRecord (pid : String)
  | deleteRecord (pid : String)
  | synthesize (text : String)
  | upload (key : String)
deriving DecidableEq

/-- The environment of one invocation: current store contents, the page
decomposition the store's scan serves, the base64url/JSON decoding oracle
for token payloads, injected failures for each external call, and the
outputs of the id generator and clock. -/
structure Env where
  table : List Item
  pages : List (List Item)
  decodeParse : String → Option Payload
  scanErr : Option String
  putErr : Option String
  updateErr : Option String
  deleteErr : Option String
  pollyErr : Option String
  uploadErr : Option String
  newId : String
  now : String

/-- Result of one invocation: the response, the store contents afterwards,
the external commands issued, and the message of the error the handler
caught, if any. -/
structure Outcome where
  resp : Response
  table : List Item
  effects : List Effect
  caught : Option String

/-- Header set attached by `formatResponse`. -/
def corsHeaders : List (String × String) :=
  [("Content-Type", "application/json"),
   ("Access-Control-Allow-Origin", "*"),
   ("Access-Control-Allow-Methods", "GET,POST,PUT,DELETE,OPTIONS"),
   ("Access-Control-Allow-Headers", "Content-Type,X-Amz-Date,Authorization,X-Api-Key,X-Amz-Security-Token")]

/-- Header set hand-built inside the GET branch (lines 120-138 of the
source): only a content type and the origin header. -/
def getHeaders : List (String × String) :=
  [("Content-Type", "application/json"),
   ("Access-Control-Allow-Origin", "*")]

/-- Header set of the 204 delete response (lines 291-298): the three
cross-origin headers, no content type. -/
def delHeaders : List (String × String) :=
  [("Access-Control-Allow-Origin", "*"),
   ("Access-Control-Allow-Methods", "GET,POST,PUT,DELETE,OPTIONS"),
   ("Access-Control-Allow-Headers", "Content-Type,X-Amz-Date,Authorization,X-Api-Key,X-Amz-Security-Token")]

/-- The source's `formatResponse` helper. -/
def formatResponse (statusCode : Nat) (body : RespBody) : Response :=
  { statusCode := statusCode, headers := corsHeaders, body := some body }

/-- JavaScript property access `m.k` on a headers object: exact-key lookup,
absent when the object itself is absent. -/
def prop (h : Option (List (String × String))) (k : String) : Option String :=
  match h with
  | none => none
  | some m => (m.find? (fun kv => kv.1 == k)).map (·.2)

/-- JavaScript `String.prototype.split` with a single-character
separator: splits on every occurrence, keeping empty segments (so the
result always has one more segment than there are separators). -/
def splitOnChar (c : Char) : List Char → List (List Char)
  | [] => [[]]
  | x :: xs =>
    let r := splitOnChar c xs
    if x = c then [] :: r
    else
      match r with
      | [] => [[x]]
      | h :: t => (x :: h) :: t

/-- Strip the `Bearer ` scheme if present (source line 46): when the
seven characters `Bearer ` lead the header value, drop them. -/
def stripBearer (a : String) : String :=
  if "Bearer ".data.isPrefixOf a.data then String.mk (a.data.drop 7) else a

/-- First truthy claim of the payload, the source's
`payload.email || payload['cognito:username'] || payload.preferred_username || null`. -/
def firstClaimVal (p : Payload) : Option String :=
  jsOrS p.email (jsOrS p.cognitoUsername (jsOrS p.preferredUsername none))

/-- The source's `getUserEmailFromToken`: reads the header under the exact
keys `Authorization` / `authorization`, strips an optional `Bearer `
prefix, splits on `.`, and when there are exactly three segments feeds the
middle one to the decode-and-parse oracle `dp` (modelling
`Buffer.from(_, 'base64').toString('utf8')` + `JSON.parse`; `none` means
that pipeline throws or yields no usable object). -/
def getUserEmailFromToken (dp : String → Option Payload) (headers : Option (List (String × String))) : Option String :=
  let authorizationHeader := jsOrS (prop headers "Authorization") (prop headers "authorization")
  if !truthyS authorizationHeader then none
  else
    let a := authorizationHeader.getD ""
    let token := stripBearer a
    let parts := splitOnChar '.' token.data
    if parts.length = 3 then
      match dp (String.mk (parts.getD 1 [])) with
      | some payload => firstClaimVal payload
      | none => none
    else none

/-- The scan filter the GET branch installs: owner equality, plus substring
containment of the search term in `searchname` when a truthy search term is
present. -/
def getFilter (user : Option String) (searchTerm : Option String) (it : Item) : Bool :=
  (it.userId == user) &&
    (if truthyS searchTerm then containsSub (searchTerm.getD "").data it.searchname.data else true)

/-- Modelled from the spec: the collection store's paginated scan protocol.
The store serves the table as a sequence of pages (continuation tokens
chain one page to the next); each page is filtered server-side and the
loop in the source accumulates the filtered pages in order. -/
def scanItems (pages : List (List Item)) (pred : Item → Bool) : List Item :=
  match pages with
  | [] => []
  | page :: rest => page.filter pred ++ scanItems rest pred

/-- Modelled from the spec: the store's unconditional single-record put,
which replaces any record under the same key. -/
def putItem (table : List Item) (it : Item) : List Item :=
  table.filter (fun x => !(x.productid == it.productid)) ++ [it]

/-- Modelled from the spec: the store's conditionless update primitive with
post-update image (`ReturnValues: ALL_NEW`).  Per the spec ("the underlying
store primitive may create the record if absent rather than strictly
requiring pre-existence") and the source's own comment, an absent key is
created with exactly the updated attributes; the post-update image is
therefore always returned. -/
def updateCommand (table : List Item) (pid productname : String) (q : Int) (p : Rat) : Option Item × List Item :=
  match table.find? (fun x => x.productid == pid) with
  | some old =>
    let upd := { old with
      productname := productname, quantity := q, price := p,
      searchname := toLowerStr productname }
    (some upd, table.map (fun x => if x.productid == pid then upd else x))
  | none =>
    let created : Item :=
      { productid := pid, productname := productname, quantity := q, price := p,
        userId := none, searchname := toLowerStr productname, createdAt := none }
    (some created, table ++ [created])

/-- Modelled from the spec: the store's single-record delete with
pre-delete image (`ReturnValues: ALL_OLD`): the image is returned exactly
when the key existed, and the record is removed. -/
def deleteCommand (table : List Item) (pid : String) : Option Item × List Item :=
  match table.find? (fun x => x.productid == pid) with
  | some old => (some old, table.filter (fun x => !(x.productid == pid)))
  | none => (none, table)

/-- The GET branch (source lines 77-139): extract identity and search term,
loop the paginated scan with the owner (and optional search) filter, and
return the accumulated items with the branch's own reduced header set; a
store error is caught by the branch's inner handler and becomes a 500 with
the `Failed to retrieve products:` message. -/
def getBranch (env : Env) (event : Event) : Outcome :=
  let user := getUserEmailFromToken env.decodeParse event.headers
  let searchTerm := event.search
  match env.scanErr with
  | some m =>
    { resp := { statusCode := 500, headers := getHeaders,
                body := some (RespBody.message ("Failed to retrieve products: " ++ m)) },
      table := env.table, effects := [Effect.scan], caught := some m }
  | none =>
    { resp := { statusCode := 200, headers := getHeaders,
                body := some (RespBody.items (scanItems env.pages (getFilter user searchTerm))) },
      table := env.table,
      effects := List.replicate (max env.pages.length 1) Effect.scan,
      caught := none }

/-- The POST branch (source lines 143-199): validate, build the new record
with a fresh id and timestamp, put it, then synthesize speech and upload
the audio; an error in any of the three external calls propagates to the
outer catch (modelled by the `caught` field). -/
def postBranch (env : Env) (b : ReqBody) : Outcome :=
  let productname := b.productname
  let user := b.user
  let quantity := parseIntJS b.quantity
  let price := parseFloatJS b.price
  if !truthyS productname || quantity.isNone || price.isNone then
    { resp := formatResponse 400 (RespBody.message "Missing productname, quantity, or price in request body"),
      table := env.table, effects := [], caught := none }
  else
    let newItem : Item :=
      { productid := env.newId
        productname := productname.getD ""
        quantity := quantity.getD 0
        price := price.getD 0
        userId := user
        searchname := toLowerStr (productname.getD "")
        createdAt := some env.now }
    match env.putErr with
    | some m =>
      { resp := formatResponse 500 (RespBody.message ("Internal Server Error: " ++ m)),
        table := env.table, effects := [Effect.putRecord newItem], caught := some m }
    | none =>
      let table1 := putItem env.table newItem
      match env.pollyErr with
      | some m =>
        { resp := formatResponse 500 (RespBody.message ("Internal Server Error: " ++ m)),
          table := table1, effects := [Effect.putRecord newItem], caught := some m }
      | none =>
        match env.uploadErr with
        | some m =>
          { resp := formatResponse 500 (RespBody.message ("Internal Server Error: " ++ m)),
            table := table1,
            effects := [Effect.putRecord newItem, Effect.synthesize (productname.getD "")],
            caught := some m }
        | none =>
          { resp := formatResponse 201 (RespBody.item newItem),
            table := table1,
            effects := [Effect.putRecord newItem, Effect.synthesize (productname.getD ""),
                        Effect.upload (env.newId ++ ".mp3")],
            caught := none }

/-- The PUT branch (source lines 202-269): validate, issue the
conditionless update requesting the post-update image, return 404 if no
image comes back, otherwise re-synthesize and re-upload the audio and
return the updated record. -/
def putBranch (env : Env) (event : Event) (b : ReqBody) : Outcome :=
  let productId := event.pathId
  let productname := b.productname
  let quantity := parseIntJS b.quantity
  let price := parseFloatJS b.price
  if !truthyS productId || !truthyS productname || quantity.isNone || price.isNone then
    { resp := formatResponse 400 (RespBody.message "Missing product ID, productname, quantity, or price in request"),
      table := env.table, effects := [], caught := none }
  else
    let pid := productId.getD ""
    match env.updateErr with
    | some m =>
      { resp := formatResponse 500 (RespBody.message ("Internal Server Error: " ++ m)),
        table := env.table, effects := [Effect.updateRecord pid], caught := some m }
    | none =>
      let res := updateCommand env.table pid (productname.getD "") (quantity.getD 0) (price.getD 0)
      match res.1 with
      | none =>
        { resp := formatResponse 404 (RespBody.message "Item not found for update (or issue updating)"),
          table := res.2, effects := [Effect.updateRecord pid], caught := none }
      | some attrs =>
        match env.pollyErr with
        | some m =>
          { resp := formatResponse 500 (RespBody.message ("Internal Server Error: " ++ m)),
            table := res.2, effects := [Effect.updateRecord pid], caught := some m }
        | none =>
          match env.uploadErr with
          | some m =>
            { resp := formatResponse 500 (RespBody.message ("Internal Server Error: " ++ m)),
              table := res.2,
              effects := [Effect.updateRecord pid, Effect.synthesize (productname.getD "")],
              caught := some m }
          | none =>
            { resp := formatResponse 200 (RespBody.item attrs),
              table := res.2,
              effects := [Effect.updateRecord pid, Effect.synthesize (productname.getD ""),
                          Effect.upload (pid ++ ".mp3")],
              caught := none }

/-- The DELETE branch (source lines 272-298): require a path id, issue the
delete requesting the pre-delete image, 404 when no image comes back,
otherwise a bodyless 204. -/
def deleteBranch (env : Env) (event : Event) : Outcome :=
  let productId := event.pathId
  if !truthyS productId then
    { resp := formatResponse 400 (RespBody.message "Missing product ID in path"),
      table := env.table, effects := [], caught := none }
  else
    let pid := productId.getD ""
    match env.deleteErr with
    | some m =>
      { resp := formatResponse 500 (RespBody.message ("Internal Server Error: " ++ m)),
        table := env.table, effects := [Effect.deleteRecord pid], caught := some m }
    | none =>
      let res := deleteCommand env.table pid
      match res.1 with
      | none =>
        { resp := formatResponse 404 (RespBody.message "Item not found for deletion"),
          table := res.2, effects := [Effect.deleteRecord pid], caught := none }
      | some _ =>
        { resp := { statusCode := 204, headers := delHeaders, body := none },
          table := res.2, effects := [Effect.deleteRecord pid], caught := none }

/-- Method dispatch (the source's if/else chain over `httpMethod`). -/
def route (env : Env) (event : Event) (b : ReqBody) : Outcome :=
  if event.httpMethod = "GET" then getBranch env event
  else if event.httpMethod = "POST" then postBranch env b
  else if event.httpMethod = "PUT" then putBranch env event b
  else if event.httpMethod = "DELETE" then deleteBranch env event
  else if event.httpMethod = "OPTIONS" then
    { resp := formatResponse 200 RespBody.emptyObj,
      table := env.table, effects := [], caught := none }
  else
    { resp := formatResponse 405 (RespBody.message "Method Not Allowed"),
      table := env.table, effects := [], caught := none }

/-- The exported handler: parse the body (a malformed body throws inside
the outer try and becomes a 500 before any dispatch), then route by
method; every caught error is converted by the outer catch into
`formatResponse 500` with the error's message embedded. -/
def handler (env : Env) (event : Event) : Outcome :=
  match event.body with
  | RawBody.bad m =>
    { resp := formatResponse 500 (RespBody.message ("Internal Server Error: " ++ m)),
      table := env.table, effects := [], caught := some m }
  | RawBody.noBody =>
    route env event { productname := none, quantity := none, price := none, user := none }
  | RawBody.good b => route env event b

/-- A baseline environment with an empty table, no injected failures, and
a decode oracle that recognises no payloads; concrete scenarios override
individual fields. -/
def baseEnv : Env :=
  { table := [], pages := [], decodeParse := fun _ => none,
    scanErr := none, putErr := none, updateErr := none, deleteErr := none,
    pollyErr := none, uploadErr := none,
    newId := "id-1", now := "2026-01-01T00:00:00.000Z" }

/-- A baseline GET event with nothing attached. -/
def baseEvent : Event :=
  { httpMethod := "GET", pathId := none, search := none, headers := none,
    body := RawBody.noBody }

/-- The uniform-response property of one outcome: the status code is one of
the contract's codes, and whenever an error was caught the response is a
500 whose body embeds the error's message (through one of the two catch
sites' message formats). -/
def wellFormedOutcome (o : Outcome) : Prop :=
  o.resp.statusCode ∈ ([200, 201, 204, 400, 404, 405, 500] : List Nat) ∧
  ∀ m, o.caught = some m →
    o.resp.statusCode = 500 ∧
    (o.resp.body = some (RespBody.message ("Internal Server Error: " ++ m)) ∨
     o.resp.body = some (RespBody.message ("Failed to retrieve products: " ++ m)))

/-- The data-model invariant: every stored record's `searchname` is the
lowercase transform of its `productname`. -/
def searchInv (l : List Item) : Prop :=
  ∀ it ∈ l, it.searchname = toLowerStr it.productname

/-- Identity extraction as the (amended) specification words it: read the
header stored under the exact key `Authorization` or, when that is absent
or empty, `authorization`; an absent or empty header yields no identity;
otherwise strip an optional `Bearer ` prefix, and exactly when the token
splits on `.` into three segments whose middle segment decodes and parses
to a claims object, return the first truthy of `email`,
`cognito:username`, `preferred_username`. -/
def extractSpec (dp : String → Option Payload) (headers : Option (List (String × String))) : Option String :=
  match jsOrS (prop headers "Authorization") (prop headers "authorization") with
  | none => none
  | some a =>
    if a = "" then none
    else
      match splitOnChar '.' (stripBearer a).data with
      | [_, mid, _] =>
        match dp (String.mk mid) with
        | some payload => firstClaimVal payload
        | none => none
      | _ => none

/-- Decode oracle recognising the single payload text `PAYLOAD`, carrying
an email claim; used by concrete token scenarios. -/
def dpX : String → Option Payload :=
  fun s => if s = "PAYLOAD" then
    some { email := some "user@example.com", cognitoUsername := none, preferredUsername := none }
  else none

/-- Record stored under the null owner, matching the search text `red mug`. -/
def redMug : Item :=
  { productid := "p1", productname := "Red Mug", quantity := 3, price := 9,
    userId := none, searchname := "red mug", createdAt := some "2026-01-01T00:00:00.000Z" }

/-- Record owned by `alice`. -/
def aliceItem : Item :=
  { productid := "p2", productname := "Widget", quantity := 1, price := 1,
    userId := some "alice", searchname := "widget", createdAt := none }

/-- A valid create/update body. -/
def validBody : ReqBody :=
  { productname := some "Blue Mug", quantity := some "5", price := some "12.5", user := none }

/-- A PUT against an identifier that exists in no record of `baseEnv`. -/
def putMissingEvent : Event :=
  { httpMethod := "PUT", pathId := some "abc123", search := none, headers := none,
    body := RawBody.good validBody }

/-- The record the conditionless update creates for `putMissingEvent`. -/
def upsertedMug : Item :=
  { productid := "abc123", productname := "Blue Mug", quantity := 5, price := mkRat 25 2,
    userId := none, searchname := "blue mug", createdAt := none }

/-- An OPTIONS preflight whose body is present but malformed JSON. -/
def optionsBadBodyEvent : Event :=
  { httpMethod := "OPTIONS", pathId := none, search := none, headers := none,
    body := RawBody.bad "Unexpected end of JSON input" }

/-- A DELETE against an identifier that exists in no record of `baseEnv`. -/
def deleteMissingEvent : Event :=
  { httpMethod := "DELETE", pathId := some "nope", search := none, headers := none,
    body := RawBody.noBody }

/-- Environment whose store serves two pages, one null-owned record and
one owned by `alice`. -/
def twoPageEnv : Env :=
  { baseEnv with table := [redMug, aliceItem], pages := [[redMug], [aliceItem]] }

/-- Environment whose scan call fails with message `boom`. -/
def scanFailEnv : Env :=
  { baseEnv with scanErr := some "boom" }

/-- Environment holding the single record `redMug`, served in one page. -/
def oneMugEnv : Env :=
  { baseEnv with table := [redMug], pages := [[redMug]] }

/-- A valid PUT addressing the existing record `redMug`. -/
def putRedMugEvent : Event :=
  { httpMethod := "PUT", pathId := some "p1", search := none, headers := none,
    body := RawBody.good validBody }

/-- A valid POST creating a new record. -/
def postValidEvent : Event :=
  { httpMethod := "POST", pathId := none, search := none, headers := none,
    body := RawBody.good validBody }

/-- A POST with the productname field missing. -/
def postNoNameEvent : Event :=
  { httpMethod := "POST", pathId := none, search := none, headers := none,
    body := RawBody.good { productname := none, quantity := some "5", price := some "12.5", user := some "alice" } }

/-- An OPTIONS preflight with no body. -/
def optionsEvent : Event :=
  { httpMethod := "OPTIONS", pathId := none, search := none, headers := none,
    body := RawBody.noBody }

/-- The header contract one outcome satisfies: the origin header always;
the JSON content type except on the 204; and, away from the GET branch
(whose hand-built header set omits them), the allowed-methods and
allowed-headers headers. -/
def headersOk (event : Event) (o : Outcome) : Prop :=
  ("Access-Control-Allow-Origin", "*") ∈ o.resp.headers ∧
  (o.resp.statusCode ≠ 204 → ("Content-Type", "application/json") ∈ o.resp.headers) ∧
  (event.httpMethod ≠ "GET" →
    ("Access-Control-Allow-Methods", "GET,POST,PUT,DELETE,OPTIONS") ∈ o.resp.headers ∧
    ("Access-Control-Allow-Headers", "Content-Type,X-Amz-Date,Authorization,X-Api-Key,X-Amz-Security-Token") ∈ o.resp.headers)

lemma wellFormed_getBranch (env : Env) (event : Event) :
    wellFormedOutcome (getBranch env event) := by
  unfold wellFormedOutcome getBranch
  cases h : env.scanErr <;> simp [h]

lemma wellFormed_postBranch (env : Env) (b : ReqBody) :
    wellFormedOutcome (postBranch env b) := by
  unfold wellFormedOutcome postBranch
  repeat' split <;> first | simp_all [formatResponse] | skip

lemma wellFormed_putBranch (env : Env) (event : Event) (b : ReqBody) :
    wellFormedOutcome (putBranch env event b) := by
  unfold wellFormedOutcome putBranch
  repeat' split <;> first | simp_all [formatResponse] | skip

lemma wellFormed_deleteBranch (env : Env) (event : Event) :
    wellFormedOutcome (deleteBranch env event) := by
  unfold wellFormedOutcome deleteBranch
  repeat' split <;> first | simp_all [formatResponse] | skip

lemma wellFormed_route (env : Env) (event : Event) (b : ReqBody) :
    wellFormedOutcome (route env event b) := by
  unfold route
  repeat' split
  · exact wellFormed_getBranch env event
  · exact wellFormed_postBranch env b
  · exact wellFormed_putBranch env event b
  · exact wellFormed_deleteBranch env event
  · unfold wellFormedOutcome; simp [formatResponse]
  · unfold wellFormedOutcome; simp [formatResponse]

/-- C1: for every inbound event the handler returns exactly one
HTTP-shaped response (it is a total function into `Outcome`) and never
throws past its boundary: whatever error any downstream call or the body
parser raises is caught and converted to a 500 response whose JSON body
embeds the error's message. -/
theorem claim_C1 (env : Env) (event : Event) :
    wellFormedOutcome (handler env event) := by
  cases hb : event.body with
  | bad m => unfold wellFormedOutcome; simp [handler, hb, formatResponse]
  | noBody => simp only [handler, hb]; exact wellFormed_route env event _
  | good b => simp only [handler, hb]; exact wellFormed_route env event b

/-- Witness for C1 at a concrete failing scan: the error message `boom`
surfaces in a 500 response. -/
theorem claim_C1_witness :
    (handler scanFailEnv baseEvent).resp.statusCode = 500 ∧
    ((handler scanFailEnv baseEvent).resp.body =
        some (RespBody.message ("Internal Server Error: " ++ "boom")) ∨
     (handler scanFailEnv baseEvent).resp.body =
        some (RespBody.message ("Failed to retrieve products: " ++ "boom"))) :=
  (claim_C1 scanFailEnv baseEvent).2 "boom" rfl

lemma containsSub_nil (h : List Char) : containsSub [] h = true := by
  cases h <;> simp [containsSub, List.isPrefixOf]

lemma getFilter_eq (user st : Option String) (it : Item) :
    getFilter user st it =
      ((it.userId == user) &&
        (match st with
         | some t => containsSub t.data it.searchname.data
         | none => true)) := by
  unfold getFilter truthyS
  cases st with
  | none => simp
  | some t =>
    by_cases ht : t.isEmpty
    · have h0 : t = "" := (String.isEmpty_iff t).mp ht
      subst h0
      simp [containsSub_nil]
    · simp [Bool.not_eq_true] at ht
      simp [ht]

lemma scanItems_eq (pages : List (List Item)) (pred : Item → Bool) :
    scanItems pages pred = (pages.flatten).filter pred := by
  induction pages with
  | nil => rfl
  | cons p rest ih => simp [scanItems, List.flatten_cons, List.filter_append, ih]

lemma handler_get (env : Env) (event : Event) (hm : event.httpMethod = "GET")
    (hgood : ∀ m, event.body ≠ RawBody.bad m) :
    handler env event = getBranch env event := by
  cases hb : event.body with
  | bad m => exact absurd hb (hgood m)
  | noBody => simp [handler, hb, route, hm]
  | good b => simp [handler, hb, route, hm]

/-- C6: a GET whose body parses and whose scan succeeds returns 200 with
exactly the store contents (the concatenation of however many pages the
scan serves) filtered to the records whose owner equals the extracted
identity and, when a search term is present, whose `searchname` contains
the term as an exact-case substring — no duplicates, no omissions; the
final conjunct records that a term differing only in case does not
match. -/
theorem claim_C6 (env : Env) (event : Event)
    (hm : event.httpMethod = "GET") (hgood : ∀ m, event.body ≠ RawBody.bad m)
    (hs : env.scanErr = none) :
    (handler env event).resp.statusCode = 200 ∧
    (handler env event).resp.body = some (RespBody.items
      ((env.pages.flatten).filter (fun it =>
        (it.userId == getUserEmailFromToken env.decodeParse event.headers) &&
        (match event.search with
         | some t => containsSub t.data it.searchname.data
         | none => true)))) ∧
    containsSub "Red".data "red mug".data = false := by
  rw [handler_get env event hm hgood]
  unfold getBranch
  rw [hs]
  refine ⟨rfl, ?_, by decide⟩
  simp only [scanItems_eq]
  congr 2
  apply List.filter_congr
  intro it _
  exact getFilter_eq _ _ it

/-- Witness for C6 on a two-page store with one null-owned and one
alice-owned record and no token on the request. -/
theorem claim_C6_witness :
    (handler twoPageEnv baseEvent).resp.statusCode = 200 ∧
    (handler twoPageEnv baseEvent).resp.body = some (RespBody.items
      ((twoPageEnv.pages.flatten).filter (fun it =>
        (it.userId == getUserEmailFromToken twoPageEnv.decodeParse baseEvent.headers) &&
        (match baseEvent.search with
         | some t => containsSub t.data it.searchname.data
         | none => true)))) ∧
    containsSub "Red".data "red mug".data = false :=
  claim_C6 twoPageEnv baseEvent rfl (fun m h => by simp [baseEvent] at h) rfl

/-- C10: a GET whose identity extraction yields no value still issues the
scan with the owner filter bound to the null identity, so only records
whose owner field equals the null value can appear in the returned list —
the request never falls back to all users' records. -/
theorem claim_C10 (env : Env) (event : Event)
    (hm : event.httpMethod = "GET") (hgood : ∀ m, event.body ≠ RawBody.bad m)
    (hs : env.scanErr = none)
    (hid : getUserEmailFromToken env.decodeParse event.headers = none) :
    Effect.scan ∈ (handler env event).effects ∧
    ∃ L, (handler env event).resp.body = some (RespBody.items L) ∧
      ∀ it ∈ L, it.userId = none := by
  rw [handler_get env event hm hgood]
  unfold getBranch
  rw [hs, hid]
  constructor
  · simp [List.mem_replicate]
  · refine ⟨_, rfl, ?_⟩
    intro it hit
    rw [scanItems_eq, List.mem_filter] at hit
    have h2 := hit.2
    unfold getFilter at h2
    rw [Bool.and_eq_true] at h2
    exact eq_of_beq h2.1

/-- Witness for C10: the tokenless GET on the two-page store scans and
returns only null-owned records. -/
theorem claim_C10_witness :
    Effect.scan ∈ (handler twoPageEnv baseEvent).effects ∧
    ∃ L, (handler twoPageEnv baseEvent).resp.body = some (RespBody.items L) ∧
      ∀ it ∈ L, it.userId = none :=
  claim_C10 twoPageEnv baseEvent rfl (fun m h => by simp [baseEvent] at h) rfl rfl

lemma route_eq_get (env : Env) (event : Event) (b : ReqBody)
    (h : event.httpMethod = "GET") : route env event b = getBranch env event := by
  unfold route; simp [h]

lemma route_eq_post (env : Env) (event : Event) (b : ReqBody)
    (h : event.httpMethod = "POST") : route env event b = postBranch env b := by
  unfold route; simp [h]

lemma route_eq_put (env : Env) (event : Event) (b : ReqBody)
    (h : event.httpMethod = "PUT") : route env event b = putBranch env event b := by
  unfold route; simp [h]

lemma route_eq_delete (env : Env) (event : Event) (b : ReqBody)
    (h : event.httpMethod = "DELETE") : route env event b = deleteBranch env event := by
  unfold route; simp [h]

lemma route_eq_options (env : Env) (event : Event) (b : ReqBody)
    (h : event.httpMethod = "OPTIONS") :
    route env event b =
      { resp := formatResponse 200 RespBody.emptyObj,
        table := env.table, effects := [], caught := none } := by
  unfold route; simp [h]

lemma route_eq_other (env : Env) (event : Event) (b : ReqBody)
    (h1 : event.httpMethod ≠ "GET") (h2 : event.httpMethod ≠ "POST")
    (h3 : event.httpMethod ≠ "PUT") (h4 : event.httpMethod ≠ "DELETE")
    (h5 : event.httpMethod ≠ "OPTIONS") :
    route env event b =
      { resp := formatResponse 405 (RespBody.message "Method Not Allowed"),
        table := env.table, effects := [], caught := none } := by
  unfold route; simp [h1, h2, h3, h4, h5]

lemma handler_eq_bad (env : Env) (event : Event) (m : String)
    (hb : event.body = RawBody.bad m) :
    handler env event =
      { resp := formatResponse 500 (RespBody.message ("Internal Server Error: " ++ m)),
        table := env.table, effects := [], caught := some m } := by
  simp [handler, hb]

lemma handler_eq_route (env : Env) (event : Event) (b : ReqBody)
    (hb : event.body = RawBody.good b) : handler env event = route env event b := by
  simp [handler, hb]

lemma handler_eq_route_noBody (env : Env) (event : Event)
    (hb : event.body = RawBody.noBody) :
    handler env event =
      route env event { productname := none, quantity := none, price := none, user := none } := by
  simp [handler, hb]

lemma searchInv_putItem (t : List Item) (ni : Item) (h : searchInv t)
    (hni : ni.searchname = toLowerStr ni.productname) : searchInv (putItem t ni) := by
  intro it hit
  unfold putItem at hit
  rw [List.mem_append] at hit
  rcases hit with hit | hit
  · exact h it (List.mem_of_mem_filter hit)
  · simp only [List.mem_singleton] at hit
    subst hit
    exact hni

lemma searchInv_updateCommand (t : List Item) (pid pn : String) (q : Int) (p : Rat)
    (h : searchInv t) : searchInv (updateCommand t pid pn q p).2 := by
  unfold updateCommand
  cases hf : t.find? (fun x => x.productid == pid) with
  | some old =>
    intro it hit
    simp only [List.mem_map] at hit
    obtain ⟨x, hx, hxe⟩ := hit
    by_cases hpid : (x.productid == pid) = true
    · rw [if_pos hpid] at hxe
      subst hxe
      rfl
    · rw [if_neg hpid] at hxe
      subst hxe
      exact h x hx
  | none =>
    intro it hit
    rw [List.mem_append] at hit
    rcases hit with hit | hit
    · exact h it hit
    · simp only [List.mem_singleton] at hit
      subst hit
      rfl

lemma searchInv_deleteCommand (t : List Item) (pid : String)
    (h : searchInv t) : searchInv (deleteCommand t pid).2 := by
  unfold deleteCommand
  cases hf : t.find? (fun x => x.productid == pid) with
  | some old =>
    intro it hit
    exact h it (List.mem_of_mem_filter hit)
  | none => exact h

lemma searchInv_post (env : Env) (b : ReqBody) (h : searchInv env.table) :
    searchInv (postBranch env b).table := by
  unfold postBranch
  dsimp only
  split
  · exact h
  · split
    · exact h
    · split
      · apply searchInv_putItem _ _ h; rfl
      · split
        · apply searchInv_putItem _ _ h; rfl
        · apply searchInv_putItem _ _ h; rfl

lemma searchInv_put (env : Env) (event : Event) (b : ReqBody) (h : searchInv env.table) :
    searchInv (putBranch env event b).table := by
  unfold putBranch
  dsimp only
  split
  · exact h
  · split
    · exact h
    · split
      · exact searchInv_updateCommand _ _ _ _ _ h
      · split
        · exact searchInv_updateCommand _ _ _ _ _ h
        · split
          · exact searchInv_updateCommand _ _ _ _ _ h
          · exact searchInv_updateCommand _ _ _ _ _ h

lemma searchInv_delete (env : Env) (event : Event) (h : searchInv env.table) :
    searchInv (deleteBranch env event).table := by
  unfold deleteBranch
  dsimp only
  split
  · exact h
  · split
    · exact h
    · split
      · exact searchInv_deleteCommand _ _ h
      · exact searchInv_deleteCommand _ _ h

lemma searchInv_get (env : Env) (event : Event) (h : searchInv env.table) :
    searchInv (getBranch env event).table := by
  unfold getBranch
  cases hs : env.scanErr <;> exact h

lemma searchInv_route (env : Env) (event : Event) (b : ReqBody) (h : searchInv env.table) :
    searchInv (route env event b).table := by
  unfold route
  repeat' split
  · exact searchInv_get env event h
  · exact searchInv_post env b h
  · exact searchInv_put env event b h
  · exact searchInv_delete env event h
  · exact h
  · exact h

lemma updateCommand_fst_inv (t : List Item) (pid pn : String) (q : Int) (p : Rat) (u : Item)
    (h : (updateCommand t pid pn q p).1 = some u) :
    u.searchname = toLowerStr u.productname := by
  unfold updateCommand at h
  cases hf : t.find? (fun x => x.productid == pid) <;>
    rw [hf] at h <;> injection h with h <;> subst h <;> rfl

lemma postBranch_cases (env : Env) (b : ReqBody) :
    (postBranch env b).resp.statusCode ∈ ([400, 500] : List Nat) ∨
    ∃ ni, (postBranch env b).resp = formatResponse 201 (RespBody.item ni) ∧
      ni.searchname = toLowerStr ni.productname := by
  unfold postBranch
  dsimp only
  split
  · left; simp [formatResponse]
  · split
    · left; simp [formatResponse]
    · split
      · left; simp [formatResponse]
      · split
        · left; simp [formatResponse]
        · right; exact ⟨_, rfl, rfl⟩

lemma putBranch_cases (env : Env) (event : Event) (b : ReqBody) :
    (putBranch env event b).resp.statusCode ∈ ([400, 404, 500] : List Nat) ∨
    ∃ u, (putBranch env event b).resp = formatResponse 200 (RespBody.item u) ∧
      u.searchname = toLowerStr u.productname := by
  unfold putBranch
  dsimp only
  split
  · left; simp [formatResponse]
  · split
    · left; simp [formatResponse]
    · split
      · left; simp [formatResponse]
      · rename_i attrs heq
        split
        · left; simp [formatResponse]
        · split
          · left; simp [formatResponse]
          · right; exact ⟨attrs, rfl, updateCommand_fst_inv _ _ _ _ _ attrs heq⟩

lemma getBranch_status (env : Env) (event : Event) :
    (getBranch env event).resp.statusCode = 200 ∨
    (getBranch env event).resp.statusCode = 500 := by
  unfold getBranch
  cases env.scanErr <;> simp

lemma deleteBranch_status (env : Env) (event : Event) :
    (deleteBranch env event).resp.statusCode ∈ ([400, 404, 500, 204] : List Nat) := by
  unfold deleteBranch
  dsimp only
  repeat' split <;> first | simp [formatResponse] | skip

lemma route_201 (env : Env) (event : Event) (b : ReqBody)
    (hst : (route env event b).resp.statusCode = 201) :
    ∃ ni, (route env event b).resp.body = some (RespBody.item ni) ∧
      ni.searchname = toLowerStr ni.productname := by
  by_cases hG : event.httpMethod = "GET"
  · rw [route_eq_get env event b hG] at hst
    rcases getBranch_status env event with h | h <;> rw [h] at hst <;> exact absurd hst (by decide)
  by_cases hP : event.httpMethod = "POST"
  · rw [route_eq_post env event b hP] at hst ⊢
    rcases postBranch_cases env b with h | ⟨ni, hr, hni⟩
    · rw [hst] at h; exact absurd h (by decide)
    · rw [hr]; exact ⟨ni, rfl, hni⟩
  by_cases hU : event.httpMethod = "PUT"
  · rw [route_eq_put env event b hU] at hst
    rcases putBranch_cases env event b with h | ⟨u, hr, hu⟩
    · rw [hst] at h; exact absurd h (by decide)
    · rw [hr] at hst; simp [formatResponse] at hst
  by_cases hD : event.httpMethod = "DELETE"
  · rw [route_eq_delete env event b hD] at hst
    have h := deleteBranch_status env event
    rw [hst] at h; exact absurd h (by decide)
  by_cases hO : event.httpMethod = "OPTIONS"
  · rw [route_eq_options env event b hO] at hst
    simp [formatResponse] at hst
  · rw [route_eq_other env event b hG hP hU hD hO] at hst
    simp [formatResponse] at hst

/-- C4: every write maintains the invariant that a stored record's
`searchname` is the lowercase transform of its `productname`; every 201
(created) response returns a record satisfying that relation, and every
200 response to a PUT returns the updated record satisfying it. -/
theorem claim_C4 (env : Env) (event : Event) :
    (searchInv env.table → searchInv (handler env event).table) ∧
    ((handler env event).resp.statusCode = 201 →
      ∃ ni, (handler env event).resp.body = some (RespBody.item ni) ∧
        ni.searchname = toLowerStr ni.productname) ∧
    (event.httpMethod = "PUT" → (handler env event).resp.statusCode = 200 →
      ∃ u, (handler env event).resp.body = some (RespBody.item u) ∧
        u.searchname = toLowerStr u.productname) := by
  refine ⟨?_, ?_, ?_⟩
  · intro h
    cases hb : event.body with
    | bad m => simp only [handler, hb]; exact h
    | noBody => rw [handler_eq_route_noBody env event hb]; exact searchInv_route env event _ h
    | good b => rw [handler_eq_route env event b hb]; exact searchInv_route env event b h
  · intro hst
    cases hb : event.body with
    | bad m =>
      rw [handler_eq_bad env event m hb] at hst
      simp [formatResponse] at hst
    | noBody =>
      rw [handler_eq_route_noBody env event hb] at hst ⊢
      exact route_201 env event _ hst
    | good b =>
      rw [handler_eq_route env event b hb] at hst ⊢
      exact route_201 env event b hst
  · intro hput hst
    cases hb : event.body with
    | bad m =>
      rw [handler_eq_bad env event m hb] at hst
      simp [formatResponse] at hst
    | noBody =>
      rw [handler_eq_route_noBody env event hb] at hst ⊢
      rw [route_eq_put env event _ hput] at hst ⊢
      rcases putBranch_cases env event _ with h | ⟨u, hr, hu⟩
      · rw [hst] at h; exact absurd h (by decide)
      · rw [hr]; exact ⟨u, rfl, hu⟩
    | good b =>
      rw [handler_eq_route env event b hb] at hst ⊢
      rw [route_eq_put env event b hput] at hst ⊢
      rcases putBranch_cases env event b with h | ⟨u, hr, hu⟩
      · rw [hst] at h; exact absurd h (by decide)
      · rw [hr]; exact ⟨u, rfl, hu⟩

/-- Witness for C4 at a concrete valid POST on an empty store. -/
theorem claim_C4_witness :
    searchInv (handler baseEnv postValidEvent).table ∧
    ∃ ni, (handler baseEnv postValidEvent).resp.body = some (RespBody.item ni) ∧
      ni.searchname = toLowerStr ni.productname :=
  ⟨(claim_C4 baseEnv postValidEvent).1 (by intro it hit; simp [baseEnv] at hit),
   (claim_C4 baseEnv postValidEvent).2.1 (by decide)⟩

/-- C3: a POST or PUT whose parsed body lacks a truthy `productname` or
whose `quantity`/`price` fail numeric parsing is answered 400, with no
command issued to any external service and the store unchanged. -/
theorem claim_C3 (env : Env) (event : Event) (b : ReqBody)
    (hb : event.body = RawBody.good b)
    (hm : event.httpMethod = "POST" ∨ event.httpMethod = "PUT")
    (hbad : truthyS b.productname = false ∨ parseIntJS b.quantity = none ∨
      parseFloatJS b.price = none) :
    (handler env event).resp.statusCode = 400 ∧
    (handler env event).table = env.table ∧
    (handler env event).effects = [] := by
  rcases hm with hm | hm
  · have hcond : (!truthyS b.productname || (parseIntJS b.quantity).isNone ||
        (parseFloatJS b.price).isNone) = true := by
      rcases hbad with h | h | h <;> simp [h]
    simp [handler, hb, route, hm, postBranch, hcond, formatResponse]
  · have hcond : (!truthyS event.pathId || !truthyS b.productname ||
        (parseIntJS b.quantity).isNone || (parseFloatJS b.price).isNone) = true := by
      rcases hbad with h | h | h <;> simp [h]
    simp [handler, hb, route, hm, putBranch, hcond, formatResponse]

/-- Witness for C3: a POST with no `productname` is refused with 400 and
leaves no trace. -/
theorem claim_C3_witness :
    (handler baseEnv postNoNameEvent).resp.statusCode = 400 ∧
    (handler baseEnv postNoNameEvent).table = baseEnv.table ∧
    (handler baseEnv postNoNameEvent).effects = [] :=
  claim_C3 baseEnv postNoNameEvent _ rfl (Or.inl rfl) (Or.inl rfl)

/-- C5: a valid PUT addressing an existing record (with all downstream
calls succeeding) answers 200 with the updated record; the stored record
keeps `productid`, `userId`, `createdAt` from the prior record while
`productname`, `quantity`, `price`, `searchname` are replaced by values
derived from the new input, and no other record is touched. -/
theorem claim_C5 (env : Env) (event : Event) (b : ReqBody) (pid : String) (old : Item)
    (pn : String) (q : Int) (p : Rat)
    (hm : event.httpMethod = "PUT") (hb : event.body = RawBody.good b)
    (hpid : event.pathId = some pid) (hpid0 : pid ≠ "")
    (hpn : b.productname = some pn) (hpn0 : pn ≠ "")
    (hq : parseIntJS b.quantity = some q) (hp : parseFloatJS b.price = some p)
    (hold : env.table.find? (fun x => x.productid == pid) = some old)
    (hue : env.updateErr = none) (hpe : env.pollyErr = none) (hupe : env.uploadErr = none) :
    (handler env event).resp.statusCode = 200 ∧
    (handler env event).resp.body = some (RespBody.item
      { old with
        productname := pn, quantity := q, price := p, searchname := toLowerStr pn }) ∧
    (handler env event).table = env.table.map (fun x =>
      if x.productid == pid then
        { old with
          productname := pn, quantity := q, price := p, searchname := toLowerStr pn }
      else x) ∧
    ({ old with
       productname := pn, quantity := q, price := p,
       searchname := toLowerStr pn } : Item).productid = old.productid ∧
    ({ old with
       productname := pn, quantity := q, price := p,
       searchname := toLowerStr pn } : Item).userId = old.userId ∧
    ({ old with
       productname := pn, quantity := q, price := p,
       searchname := toLowerStr pn } : Item).createdAt = old.createdAt := by
  rw [handler_eq_route env event b hb, route_eq_put env event b hm]
  unfold putBranch
  simp [hpid, hpn, hq, hp, truthyS, String.isEmpty_iff, hpid0, hpn0, hue, hpe, hupe,
    updateCommand, hold, formatResponse]

/-- Witness for C5: updating the stored `redMug` record by a concrete
valid PUT. -/
theorem claim_C5_witness :
    (handler oneMugEnv putRedMugEvent).resp.statusCode = 200 ∧
    (handler oneMugEnv putRedMugEvent).resp.body = some (RespBody.item
      { redMug with
        productname := "Blue Mug", quantity := 5, price := mkRat 25 2,
        searchname := toLowerStr "Blue Mug" }) ∧
    (handler oneMugEnv putRedMugEvent).table = oneMugEnv.table.map (fun x =>
      if x.productid == "p1" then
        { redMug with
          productname := "Blue Mug", quantity := 5, price := mkRat 25 2,
          searchname := toLowerStr "Blue Mug" }
      else x) ∧
    ({ redMug with
       productname := "Blue Mug", quantity := 5, price := mkRat 25 2,
       searchname := toLowerStr "Blue Mug" } : Item).productid = redMug.productid ∧
    ({ redMug with
       productname := "Blue Mug", quantity := 5, price := mkRat 25 2,
       searchname := toLowerStr "Blue Mug" } : Item).userId = redMug.userId ∧
    ({ redMug with
       productname := "Blue Mug", quantity := 5, price := mkRat 25 2,
       searchname := toLowerStr "Blue Mug" } : Item).createdAt = redMug.createdAt :=
  claim_C5 oneMugEnv putRedMugEvent validBody "p1" redMug "Blue Mug" 5 (mkRat 25 2)
    rfl rfl rfl (by decide) rfl (by decide) (by decide) (by decide) (by decide) rfl rfl rfl

lemma isEmpty_false_of_ne (s : String) (h : s ≠ "") : s.isEmpty = false := by
  rw [Bool.eq_false_iff]
  intro hx
  exact h ((String.isEmpty_iff s).mp hx)

/-- Counterexample to C2 as stated: a valid PUT addressing an identifier
matching no record answers 200 (not 404) and creates a record — the
conditionless update primitive upserts, as both the specification's §4
description and the source's own comment acknowledge. -/
theorem claim_C2_counterexample :
    (handler baseEnv putMissingEvent).resp.statusCode = 200 ∧
    (handler baseEnv putMissingEvent).resp.statusCode ≠ 404 ∧
    baseEnv.table = [] ∧
    (handler baseEnv putMissingEvent).table = [upsertedMug] :=
  ⟨by decide, by decide, rfl, by decide⟩

/-- C2 amended: a DELETE whose identifier matches no record (and whose
delete call succeeds) answers 404 and removes nothing; a valid PUT whose
identifier matches no record does not answer 404 — the update primitive
creates the record (with only the key and the four written fields) and
the response is 200 when the audio steps also succeed. -/
theorem claim_C2_amended (env : Env) (event : Event) :
    (∀ pid, event.httpMethod = "DELETE" → (∀ m, event.body ≠ RawBody.bad m) →
      event.pathId = some pid → pid ≠ "" →
      env.deleteErr = none →
      env.table.find? (fun x => x.productid == pid) = none →
      (handler env event).resp.statusCode = 404 ∧
      (handler env event).table = env.table) ∧
    (∀ b pid pn q p, event.httpMethod = "PUT" → event.body = RawBody.good b →
      event.pathId = some pid → pid ≠ "" →
      b.productname = some pn → pn ≠ "" →
      parseIntJS b.quantity = some q → parseFloatJS b.price = some p →
      env.updateErr = none →
      env.table.find? (fun x => x.productid == pid) = none →
      (handler env event).table = env.table ++
        [{ productid := pid, productname := pn, quantity := q, price := p,
           userId := none, searchname := toLowerStr pn, createdAt := none }] ∧
      (handler env event).resp.statusCode ≠ 404 ∧
      (env.pollyErr = none → env.uploadErr = none →
        (handler env event).resp.statusCode = 200 ∧
        (handler env event).resp.body = some (RespBody.item
          { productid := pid, productname := pn, quantity := q, price := p,
            userId := none, searchname := toLowerStr pn, createdAt := none }))) := by
  constructor
  · intro pid hm hnb hpid hpid0 hde hfind
    have hred : handler env event = deleteBranch env event := by
      cases hb : event.body with
      | bad m => exact absurd hb (hnb m)
      | noBody => rw [handler_eq_route_noBody env event hb, route_eq_delete env event _ hm]
      | good b => rw [handler_eq_route env event b hb, route_eq_delete env event b hm]
    rw [hred]
    unfold deleteBranch
    simp [hpid, truthyS, isEmpty_false_of_ne pid hpid0, hde, deleteCommand, hfind, formatResponse]
  · intro b pid pn q p hm hb hpid hpid0 hpn hpn0 hq hp hue hfind
    rw [handler_eq_route env event b hb, route_eq_put env event b hm]
    unfold putBranch
    simp only [hpid, hpn, hq, hp, hue, Option.getD_some]
    have hcond : (!truthyS (some pid) || !truthyS (some pn) ||
        (Option.isNone (some q)) || (Option.isNone (some p))) = false := by
      simp [truthyS, isEmpty_false_of_ne pid hpid0, isEmpty_false_of_ne pn hpn0]
    rw [hcond]
    simp only [Bool.false_eq_true, if_false]
    unfold updateCommand
    rw [hfind]
    dsimp only
    cases hpe2 : env.pollyErr with
    | some m =>
      refine ⟨?_, ?_, ?_⟩
      · rfl
      · show (500 : Nat) ≠ 404
        decide
      · intro hpe _
        exact absurd hpe (by simp)
    | none =>
      cases hupe2 : env.uploadErr with
      | some m =>
        refine ⟨?_, ?_, ?_⟩
        · rfl
        · show (500 : Nat) ≠ 404
          decide
        · intro _ hupe
          exact absurd hupe (by simp)
      | none =>
        refine ⟨rfl, ?_, fun _ _ => ⟨rfl, rfl⟩⟩
        show (200 : Nat) ≠ 404
        decide

/-- Witness for the amended C2: the DELETE half at a concrete missing
identifier. -/
theorem claim_C2_witness :
    (handler baseEnv deleteMissingEvent).resp.statusCode = 404 ∧
    (handler baseEnv deleteMissingEvent).table = baseEnv.table :=
  (claim_C2_amended baseEnv deleteMissingEvent).1 "nope" rfl
    (fun m h => by simp [deleteMissingEvent] at h) rfl (by decide) rfl rfl

/-- Counterexample to C7 as stated: an OPTIONS request whose body is
malformed JSON is answered 500, not 200 — the body is parsed before the
method dispatch, inside the outer try. -/
theorem claim_C7_counterexample :
    (handler baseEnv optionsBadBodyEvent).resp.statusCode = 500 ∧
    (handler baseEnv optionsBadBodyEvent).resp.statusCode ≠ 200 ∧
    (handler baseEnv optionsBadBodyEvent).resp.body =
      some (RespBody.message "Internal Server Error: Unexpected end of JSON input") :=
  ⟨by decide, by decide, by decide⟩

/-- C7 amended: an OPTIONS request whose body is absent or parseable JSON
is answered 200 with an empty JSON object body, no external call is
issued, and the store is unchanged; a malformed JSON body instead
surfaces as the outer catch's 500. -/
theorem claim_C7_amended (env : Env) (event : Event)
    (hm : event.httpMethod = "OPTIONS") (hnb : ∀ m, event.body ≠ RawBody.bad m) :
    (handler env event).resp.statusCode = 200 ∧
    (handler env event).resp.body = some RespBody.emptyObj ∧
    (handler env event).effects = [] ∧
    (handler env event).table = env.table := by
  have hred : handler env event =
      { resp := formatResponse 200 RespBody.emptyObj,
        table := env.table, effects := [], caught := none } := by
    cases hb : event.body with
    | bad m => exact absurd hb (hnb m)
    | noBody => rw [handler_eq_route_noBody env event hb, route_eq_options env event _ hm]
    | good b => rw [handler_eq_route env event b hb, route_eq_options env event b hm]
  rw [hred]
  exact ⟨rfl, rfl, rfl, rfl⟩

/-- Witness for the amended C7 at a concrete bodyless OPTIONS request. -/
theorem claim_C7_witness :
    (handler baseEnv optionsEvent).resp.statusCode = 200 ∧
    (handler baseEnv optionsEvent).resp.body = some RespBody.emptyObj ∧
    (handler baseEnv optionsEvent).effects = [] ∧
    (handler baseEnv optionsEvent).table = baseEnv.table :=
  claim_C7_amended baseEnv optionsEvent rfl (fun m h => by simp [optionsEvent] at h)

lemma headersOk_of_cors (event : Event) (o : Outcome)
    (h : o.resp.headers = corsHeaders) : headersOk event o := by
  refine ⟨?_, fun _ => ?_, fun _ => ⟨?_, ?_⟩⟩ <;> rw [h] <;> decide

lemma headersOk_of_get (event : Event) (o : Outcome)
    (h : o.resp.headers = getHeaders) (hm : event.httpMethod = "GET") :
    headersOk event o := by
  refine ⟨?_, fun _ => ?_, fun hne => absurd hm hne⟩ <;> rw [h] <;> decide

lemma headersOk_of_del (event : Event) (o : Outcome)
    (h : o.resp.headers = delHeaders) (hst : o.resp.statusCode = 204) :
    headersOk event o := by
  refine ⟨?_, fun hne => absurd hst hne, fun _ => ⟨?_, ?_⟩⟩ <;> rw [h] <;> decide

lemma getBranch_headers (env : Env) (event : Event) :
    (getBranch env event).resp.headers = getHeaders := by
  unfold getBranch
  cases env.scanErr <;> rfl

lemma postBranch_headers (env : Env) (b : ReqBody) :
    (postBranch env b).resp.headers = corsHeaders := by
  unfold postBranch
  dsimp only
  split
  · rfl
  · split
    · rfl
    · split
      · rfl
      · split
        · rfl
        · rfl

lemma putBranch_headers (env : Env) (event : Event) (b : ReqBody) :
    (putBranch env event b).resp.headers = corsHeaders := by
  unfold putBranch
  dsimp only
  split
  · rfl
  · split
    · rfl
    · split
      · rfl
      · split
        · rfl
        · split
          · rfl
          · rfl

lemma deleteBranch_headers (env : Env) (event : Event) :
    (deleteBranch env event).resp.headers = corsHeaders ∨
    ((deleteBranch env event).resp.headers = delHeaders ∧
      (deleteBranch env event).resp.statusCode = 204) := by
  unfold deleteBranch
  dsimp only
  split
  · left; rfl
  · split
    · left; rfl
    · split
      · left; rfl
      · right; exact ⟨rfl, rfl⟩

lemma headersOk_route (env : Env) (event : Event) (b : ReqBody) :
    headersOk event (route env event b) := by
  by_cases hG : event.httpMethod = "GET"
  · rw [route_eq_get env event b hG]
    exact headersOk_of_get event _ (getBranch_headers env event) hG
  by_cases hP : event.httpMethod = "POST"
  · rw [route_eq_post env event b hP]
    exact headersOk_of_cors event _ (postBranch_headers env b)
  by_cases hU : event.httpMethod = "PUT"
  · rw [route_eq_put env event b hU]
    exact headersOk_of_cors event _ (putBranch_headers env event b)
  by_cases hD : event.httpMethod = "DELETE"
  · rw [route_eq_delete env event b hD]
    rcases deleteBranch_headers env event with h | ⟨h, hst⟩
    · exact headersOk_of_cors event _ h
    · exact headersOk_of_del event _ h hst
  by_cases hO : event.httpMethod = "OPTIONS"
  · rw [route_eq_options env event b hO]
    exact headersOk_of_cors event _ rfl
  · rw [route_eq_other env event b hG hP hU hD hO]
    exact headersOk_of_cors event _ rfl

/-- Counterexample to C8 as stated: the GET branch's 200 response carries
neither an allowed-methods nor an allowed-headers header — its hand-built
header set has only the content type and the origin header. -/
theorem claim_C8_counterexample :
    (handler baseEnv baseEvent).resp.statusCode = 200 ∧
    (handler baseEnv baseEvent).resp.headers.find?
      (fun kv => kv.1 == "Access-Control-Allow-Methods") = none ∧
    (handler baseEnv baseEvent).resp.headers.find?
      (fun kv => kv.1 == "Access-Control-Allow-Headers") = none :=
  ⟨by decide, by decide, by decide⟩

/-- C8 amended: every response carries `Access-Control-Allow-Origin: *`;
every non-204 response carries `Content-Type: application/json`; and
every response to a non-GET method also carries the allowed-methods and
allowed-headers headers (the GET branch's responses omit those two). -/
theorem claim_C8_amended (env : Env) (event : Event) :
    headersOk event (handler env event) := by
  cases hb : event.body with
  | bad m =>
    exact headersOk_of_cors event _ (by rw [handler_eq_bad env event m hb]; rfl)
  | noBody =>
    rw [handler_eq_route_noBody env event hb]
    exact headersOk_route env event _
  | good b =>
    rw [handler_eq_route env event b hb]
    exact headersOk_route env event b

/-- Witness for the amended C8 at a concrete OPTIONS request. -/
theorem claim_C8_witness : headersOk optionsEvent (handler baseEnv optionsEvent) :=
  claim_C8_amended baseEnv optionsEvent

/-- Counterexample to C9 as stated: the header is not read
case-insensitively — under the key `AUTHORIZATION` a token whose payload
carries an email claim yields no identity, while the identical token
under `Authorization` yields the claim. -/
theorem claim_C9_counterexample :
    getUserEmailFromToken dpX (some [("AUTHORIZATION", "H.PAYLOAD.S")]) = none ∧
    getUserEmailFromToken dpX (some [("Authorization", "H.PAYLOAD.S")]) = some "user@example.com" :=
  ⟨rfl, rfl⟩

/-- C9 amended: for every decode oracle and headers map, identity
extraction behaves exactly as `extractSpec` words it — the header is read
under the exact keys `Authorization`/`authorization` (not arbitrary
casings), an absent or empty value yields no identity, an optional
`Bearer ` prefix is stripped, and exactly when the token splits on `.`
into three segments whose middle segment decodes and parses to a claims
object the first truthy of `email`, `cognito:username`,
`preferred_username` is returned; in every other case the result is the
absent value, and the function is total (never throws). -/
theorem claim_C9_amended (dp : String → Option Payload)
    (headers : Option (List (String × String))) :
    getUserEmailFromToken dp headers = extractSpec dp headers := by
  unfold getUserEmailFromToken extractSpec
  cases hah : jsOrS (prop headers "Authorization") (prop headers "authorization") with
  | none => simp [truthyS]
  | some a =>
    dsimp only
    by_cases ha : a = ""
    · subst ha
      simp [truthyS, show "".isEmpty = true from rfl]
    · have htr : truthyS (some a) = true := by
        simp [truthyS, isEmpty_false_of_ne a ha]
      rw [htr]
      simp only [Bool.not_true, Bool.false_eq_true, if_false, Option.getD_some]
      rw [if_neg ha]
      cases h1 : splitOnChar '.' (stripBearer a).data with
      | nil => simp
      | cons x t =>
        cases t with
        | nil => simp
        | cons y t2 =>
          cases t2 with
          | nil => simp
          | cons z t3 =>
            cases t3 with
            | nil => simp
            | cons w t4 => simp

end ProductApi
